import Mathlib

/-!
Shallow embedding of the KWDB playground e2e test harness:
the streaming session client (`tests/e2e/utils/websocket_client.py`,
class `WebSocketClient`), the polling control client
(`tests/e2e/utils/api_client.py`, class `APIClient`), and the concurrent
fan-out harness (`tests/e2e/test_port_conflict.py`,
`test_concurrent_port_conflict_detection`).

Time is discretised into one-second ticks: each `Queue.get(timeout=1)`
poll and each `time.sleep(1)` consumes one tick, and `time.time() -
start_time < timeout` becomes a comparison of the tick counter against
the integral timeout.  External library behaviour (JSON decoding, the
websocket transport, HTTP requests) enters the model as scripted inputs:
a frame is given as already-decoded or undecodable, a transport write
either succeeds or raises, a status poll either returns a JSON object or
raises.
-/

namespace KWDBPlayground

/-- One item of the inbound queue `self.messages`.  The receive callback
`on_message` enqueues either the parsed JSON object of a frame or the
wrapper `{"type": "raw", "data": message}` for a frame that fails JSON
decoding; for the harness only the `type` and `data` fields are ever
read (`data.get("type")`, `message.get("data", "")`), so a queue item is
modelled by those two string fields. -/
structure Msg where
  type : String
  data : String
deriving DecidableEq, Repr

/-- One inbound websocket frame, as the `json.loads` call inside
`on_message` sees it: either it decodes to a JSON object (with its
`type` and `data` fields) or it raises `JSONDecodeError`. -/
inductive Frame where
  /-- the frame text is valid JSON; `t`/`d` are its `type`/`data` fields -/
  | parsed (t : String) (d : String)
  /-- the frame text fails JSON decoding -/
  | unparsed (text : String)
deriving DecidableEq, Repr

/-- The queue item `on_message` produces for a frame: the parsed object
itself, or the raw wrapper `{"type": "raw", "data": message}`. -/
def decodeFrame : Frame → Msg
  | .parsed t d => ⟨t, d⟩
  | .unparsed s => ⟨"raw", s⟩

/-- Whether a frame is the connection acknowledgement: `on_message`
checks `data.get("type") == "connected"` after a successful parse. -/
def isAckFrame : Frame → Bool
  | .parsed t _ => t == "connected"
  | .unparsed _ => false

/-- The session state the receive callbacks touch: the inbound FIFO
queue `self.messages` (front = next `get`) and the `threading.Event`
`self.connected`. -/
structure RecvState where
  queue : List Msg
  connected : Bool
deriving DecidableEq, Repr

/-- Model of `on_message(ws, message)`: parse, `self.messages.put(...)` (the raw
wrapper on `JSONDecodeError`), and `self.connected.set()` when the
parsed object's `type` is `"connected"`. -/
def on_message (st : RecvState) (f : Frame) : RecvState :=
  let st1 : RecvState := { st with queue := st.queue ++ [decodeFrame f] }
  if isAckFrame f then { st1 with connected := true } else st1

/-- The receive loop delivering a sequence of frames: `on_message` runs
once per inbound frame, in arrival order. -/
def processFrames (st : RecvState) (fs : List Frame) : RecvState :=
  fs.foldl on_message st

/-- Contiguous-occurrence test on character lists: `n` occurs in `hay`
iff it starts at `hay` itself or occurs in its tail; the empty list
occurs everywhere. -/
def hasSubstr : List Char → List Char → Bool
  | n, [] => n.isEmpty
  | n, c :: rest => n.isPrefixOf (c :: rest) || hasSubstr n rest

/-- Python's substring test `needle in hay` on strings: `True` exactly
when `needle` occurs contiguously in `hay` (always for the empty
needle). -/
def substrIn (needle hay : String) : Bool :=
  hasSubstr needle.toList hay.toList

/-- The client-side state `send_command`, `close` and `is_connected`
read: whether `self.ws` holds a transport object (it is `None` until
`connect` and is never reset to `None`), the `self.connected` event, and
whether the receive-loop thread `self.ws_thread` is alive. -/
structure ClientState where
  wsPresent : Bool
  connected : Bool
  threadAlive : Bool
deriving DecidableEq, Repr

/-- The outbound frame `send_command` builds:
`{"type": "input", "data": command + "\n"}`. -/
def mkInputFrame (command : String) : Msg :=
  ⟨"input", command ++ "\n"⟩

/-- Model of `send_command(command)`: raises `"WebSocket未连接"` when `self.ws`
is `None`; otherwise serialises `mkInputFrame` and calls
`self.ws.send`.  The transport write is scripted by `writeFails`: when
the write raises, the `except` clause returns `False`; otherwise the
call returns `True`.  The result carries the frame that reached the
transport (`none` when the write raised). -/
def send_command (st : ClientState) (writeFails : Bool) (command : String) :
    Except String (Bool × Option Msg) :=
  if !st.wsPresent then .error "WebSocket未连接"
  else if writeFails then .ok (false, none)
  else .ok (true, some (mkInputFrame command))

/-- Model of `close()`: `self.ws.close()` when a transport exists (the transport
shutdown makes the receive loop end, firing `on_close`, which clears
`self.connected`), then joins the receive-loop thread when it is alive
(bounded wait; after it the thread is dead).  `self.ws` itself is never
cleared.  The function body raises nothing and returns no value. -/
def close (st : ClientState) : ClientState :=
  if st.wsPresent then { st with connected := false, threadAlive := false }
  else st

/-- Model of `is_connected()`: `self.connected.is_set()`. -/
def is_connected (st : ClientState) : Bool :=
  st.connected

/-- What the handshake wait observes during one tick of
`connect`: an inbound frame, the transport closing (status code and
message, as `on_close` receives them), or nothing. -/
inductive HsTick where
  | frame (f : Frame)
  | closed (code : Nat) (msg : String)
  | silent
deriving DecidableEq, Repr

/-- Whether the connection acknowledgement is observed strictly before
tick `n`: `self.connected.wait(timeout=10)` succeeds exactly when some
frame with parsed `type == "connected"` arrives while it waits
(`on_message` calls `self.connected.set()` on such a frame). -/
def ackWithin (env : Nat → HsTick) (n : Nat) : Bool :=
  (List.range n).any fun t =>
    match env t with
    | .frame f => isAckFrame f
    | _ => false

/-- Model of `connect(container_id)`: opens the transport, starts the receive
thread, then `self.connected.wait(timeout=10)`; returns `True` when the
acknowledgement was observed within the 10-second wait, otherwise
raises `"WebSocket连接超时"`.  No other exception is raised by `connect`
itself: a remote rejection only makes the callbacks record
`self.error` / clear `self.connected`, which this function never
reads. -/
def connect (env : Nat → HsTick) : Except String Bool :=
  if ackWithin env 10 then .ok true else .error "WebSocket连接超时"

/-- The ambient session during one tick of the `execute_command_and_wait`
wait loop: which messages the receive loop delivers into the queue during
this tick, and whether the transport is still open.  The loop body reads
only the queue (via `self.get_output(timeout=1)`); `connOpen` records the
`self.connected` event that `on_close` clears, which the loop never
consults. -/
structure Tick where
  arrivals : List Msg
  connOpen : Bool

/-- The early-exit test of the wait loop:
`expected_output and expected_output in str(message.get("data", ""))` —
false when no expected output was passed (`None`) and when the expected
output is the empty string (falsy in Python), otherwise the substring
test against the message's `data` field. -/
def breakMatch (exp : Option String) (m : Msg) : Bool :=
  match exp with
  | some e => !e.isEmpty && substrIn e m.data
  | none => false

/-- The wait loop of `execute_command_and_wait`:

```
while time.time() - start_time < timeout:
    message = self.get_output(timeout=1)
    if message:
        outputs.append(message)
        if expected_output and expected_output in str(message.get("data", "")):
            break
```

Each iteration is one tick `t` (one `get(timeout=1)` poll): the receive
loop first adds `(env t).arrivals` at the back of the queue, then the
poll removes the front message if any.  The tick counter `t` is carried
together with the remaining seconds `r` (the guard `t < timeout` holds
exactly while `r > 0`, since `r = timeout - t` throughout a run started
at `waitLoop env exp timeout 0 q []`).  Returns the collected
`outputs`, the tick at which the loop stopped, and the queue left
behind in `self.messages`. -/
def waitLoop (env : Nat → Tick) (exp : Option String) :
    Nat → Nat → List Msg → List Msg → List Msg × Nat × List Msg
  | 0, t, q, acc => (acc, t, q)
  | r + 1, t, q, acc =>
    match q ++ (env t).arrivals with
    | [] => waitLoop env exp r (t + 1) [] acc
    | m :: rest =>
      if breakMatch exp m then
        (acc ++ [m], t + 1, rest)
      else
        waitLoop env exp r (t + 1) rest (acc ++ [m])

/-- The drain loop at the top of `execute_command_and_wait`:
`while not self.messages.empty(): self.messages.get_nowait()` — removes
every queued message, one at a time. -/
def drainQueue : List Msg → List Msg
  | [] => []
  | _ :: rest => drainQueue rest

/-- The dictionary `execute_command_and_wait` returns:
`{"command": ..., "outputs": outputs, "success": len(outputs) > 0}`,
plus the instrumentation field `ticks`, the number of one-second polls
the wait loop performed (the tick at which it stopped). -/
structure ExecResult where
  command : String
  outputs : List Msg
  success : Bool
  ticks : Nat
deriving DecidableEq, Repr

/-- Model of `execute_command_and_wait(command, expected_output, timeout)`:
drains the queue, sends the command (raising
`"发送命令失败: ..."` when `send_command` returns `False`, and letting
the `"WebSocket未连接"` exception of `send_command` propagate), then runs
the wait loop from tick 0 on the drained queue and seals
`success = len(outputs) > 0`.  `pre` is the queue content at call time;
`env` scripts the arrivals and connection state during the wait. -/
def execute_command_and_wait (st : ClientState) (writeFails : Bool)
    (pre : List Msg) (env : Nat → Tick) (command : String)
    (exp : Option String) (timeout : Nat) : Except String ExecResult :=
  match send_command st writeFails command with
  | .error e => .error e
  | .ok (false, _) => .error ("发送命令失败: " ++ command)
  | .ok (true, _) =>
    let res := waitLoop env exp timeout 0 (drainQueue pre) []
    .ok ⟨command, res.1, decide (0 < res.1.length), res.2.1⟩

/-- One `get_container_status` poll as `wait_for_container_ready` sees
it: the decoded JSON object, or any raised exception (connection error,
non-2xx status via `raise_for_status`, bad JSON). -/
inductive PollR where
  | ok (fields : List (String × String))
  | raiseErr
deriving DecidableEq, Repr

/-- The per-poll test of `wait_for_container_ready`:
`status.get("status") == "running"`, with a raised poll caught by the
bare `except: pass` (hence treated as not running). -/
def isRunningPoll : PollR → Bool
  | .ok fields => fields.lookup "status" == some "running"
  | .raiseErr => false

/-- The polling loop of `wait_for_container_ready`:

```
while time.time() - start_time < timeout:
    try:
        status = self.get_container_status(container_id)
        if status.get("status") == "running":
            return True
    except:
        pass
    time.sleep(1)
return False
```

One tick per iteration (the `sleep(1)`); poll `t` happens at elapsed
time `t`, and `r` is the remaining seconds (`r = timeout - t`). -/
def readyLoop (polls : Nat → PollR) : Nat → Nat → Bool
  | 0, _ => false
  | r + 1, t => if isRunningPoll (polls t) then true else readyLoop polls r (t + 1)

/-- Model of `wait_for_container_ready(container_id, timeout)`: run the polling
loop from elapsed time 0.  Total — the bare `except` swallows every
poll failure, so the function returns a boolean and never raises. -/
def wait_for_container_ready (polls : Nat → PollR) (timeout : Nat) : Bool :=
  readyLoop polls timeout 0

/-- One event on the main thread of
`test_concurrent_port_conflict_detection`: starting worker thread `i`
(`thread.start()`) or joining it (`thread.join()`). -/
inductive FanEvent where
  | start (i : Nat)
  | join (i : Nat)
deriving DecidableEq, Repr

/-- The main-thread trace of the fan-out harness: the first `for` loop
starts threads `0..n-1` in order, and only then the second `for` loop
joins them in order — every start precedes every join. -/
def fanOutTrace (n : Nat) : List FanEvent :=
  (List.range n).map .start ++ (List.range n).map .join

/-- One worker's recorded outcome, as `check_conflict` puts it on the
results queue: `("success", conflict_info)` or `("error", str(e))`. -/
inductive WOutcome where
  | success (info : String)
  | error (msg : String)
deriving DecidableEq, Repr

/-- The body of `check_conflict`: one `check_port_conflict` call,
its value recorded on success and the exception text recorded on
failure — no retry, no influence from other workers. -/
def check_conflict (call : Except String String) : WOutcome :=
  match call with
  | .ok info => .success info
  | .error e => .error e

/-- The outcome set the harness collects: worker `i` runs `op i` once
and records its own outcome; the queue holds one record per worker
after all joins. -/
def fanOutResults (op : Nat → Except String String) (n : Nat) : List WOutcome :=
  (List.range n).map fun i => check_conflict (op i)

/-- Wait-loop script: one message `{"type": "output", "data": "bar"}`
arrives at tick 0 and nothing afterwards; the transport stays open. -/
def envOneBar : Nat → Tick :=
  fun t => if t = 0 then ⟨[⟨"output", "bar"⟩], true⟩ else ⟨[], true⟩

/-- Wait-loop script: the transport is closed from tick 0 on and no
message ever arrives — a session that dies right after the send. -/
def envClosedNoArrivals : Nat → Tick :=
  fun _ => ⟨[], false⟩

/-- Handshake script: the remote refuses the resource id — it closes
the socket at tick 0 with a policy-violation code and no
acknowledgement frame ever arrives. -/
def hsRejected : Nat → HsTick :=
  fun t => if t = 0 then .closed 1008 "invalid container_id" else .silent

/-- Handshake script: nothing arrives at all. -/
def hsSilent : Nat → HsTick :=
  fun _ => .silent

/-- The client state of a connected session right after `close()`:
the transport object is still referenced (`self.ws` is never reset to
`None`), the `connected` event is cleared, the receive thread joined. -/
def closedState : ClientState :=
  close ⟨true, true, true⟩

theorem waitLoop_stop_ge (env : Nat → Tick) (exp : Option String) :
    ∀ r t q acc, t ≤ (waitLoop env exp r t q acc).2.1 := by
  intro r
  induction r with
  | zero => intro t q acc; simp [waitLoop]
  | succ r ih =>
    intro t q acc
    simp only [waitLoop]
    split
    · exact le_trans (Nat.le_succ t) (ih (t + 1) [] acc)
    · split
      · simp
      · exact le_trans (Nat.le_succ t) (ih (t + 1) _ _)

theorem waitLoop_conn_irrel (env env' : Nat → Tick) (exp : Option String)
    (h : ∀ t, (env t).arrivals = (env' t).arrivals) :
    ∀ r t q acc, waitLoop env exp r t q acc = waitLoop env' exp r t q acc := by
  intro r
  induction r with
  | zero => intro t q acc; simp [waitLoop]
  | succ r ih =>
    intro t q acc
    simp only [waitLoop, h t]
    split
    · exact ih (t + 1) [] acc
    · split
      · rfl
      · exact ih (t + 1) _ _

theorem drainQueue_nil : ∀ l : List Msg, drainQueue l = [] := by
  intro l
  induction l with
  | nil => rfl
  | cons x xs ih => simpa [drainQueue] using ih

theorem waitLoop_no_arrivals (env : Nat → Tick) (exp : Option String) :
    ∀ r t acc, (∀ u, t ≤ u → u < t + r → (env u).arrivals = []) →
      waitLoop env exp r t [] acc = (acc, t + r, []) := by
  intro r
  induction r with
  | zero => intro t acc _; simp [waitLoop]
  | succ r ih =>
    intro t acc h
    have h0 : (env t).arrivals = [] := h t le_rfl (by omega)
    simp only [waitLoop, h0, List.nil_append]
    have e : t + (r + 1) = t + 1 + r := by omega
    rw [e]
    exact ih (t + 1) acc (fun u hu1 hu2 => h u (by omega) (by omega))

theorem waitLoop_empty_iff (env : Nat → Tick) (exp : Option String) :
    ∀ r t q acc, (waitLoop env exp r t q acc).1 = [] ↔
      acc = [] ∧ (0 < r → q = []) ∧ ∀ u, t ≤ u → u < t + r → (env u).arrivals = [] := by
  intro r
  induction r with
  | zero =>
    intro t q acc
    simp only [waitLoop]
    constructor
    · intro h
      exact ⟨h, fun h0 => absurd h0 (by omega), fun u h1 h2 => absurd h2 (by omega)⟩
    · intro h
      exact h.1
  | succ r ih =>
    intro t q acc
    simp only [waitLoop]
    split
    next hq =>
      have hq1 : q = [] := (List.append_eq_nil.mp hq).1
      have hq2 : (env t).arrivals = [] := (List.append_eq_nil.mp hq).2
      rw [ih]
      constructor
      · rintro ⟨h1, _, h3⟩
        refine ⟨h1, fun _ => hq1, fun u hu1 hu2 => ?_⟩
        rcases Nat.eq_or_lt_of_le hu1 with h | h
        · exact h ▸ hq2
        · exact h3 u h (by omega)
      · rintro ⟨h1, _, h3⟩
        exact ⟨h1, fun _ => rfl, fun u hu1 hu2 => h3 u (by omega) (by omega)⟩
    next m rest hq =>
      have hne : ¬(acc = [] ∧ (0 < r + 1 → q = []) ∧
          ∀ u, t ≤ u → u < t + (r + 1) → (env u).arrivals = []) := by
        rintro ⟨_, h2, h3⟩
        have : q ++ (env t).arrivals = [] := by
          rw [h2 (by omega), h3 t le_rfl (by omega)]
          rfl
        rw [hq] at this
        exact List.cons_ne_nil m rest this
      by_cases hb : breakMatch exp m = true
      · rw [if_pos hb]
        constructor
        · intro h
          exact absurd h (by simp)
        · intro h
          exact absurd h hne
      · rw [if_neg hb]
        rw [ih]
        constructor
        · rintro ⟨h1, _, _⟩
          exact absurd h1 (by simp)
        · intro h
          exact absurd h hne

theorem waitLoop_fifo (env : Nat → Tick) (exp : Option String) :
    ∀ r t q acc,
      (waitLoop env exp r t q acc).1 ++ (waitLoop env exp r t q acc).2.2 =
        acc ++ q ++ (List.range' t ((waitLoop env exp r t q acc).2.1 - t)).flatMap
          (fun u => (env u).arrivals) := by
  intro r
  induction r with
  | zero =>
    intro t q acc
    simp [waitLoop]
  | succ r ih =>
    intro t q acc
    simp only [waitLoop]
    split
    next hq =>
      have hq1 : q = [] := (List.append_eq_nil.mp hq).1
      have hq2 : (env t).arrivals = [] := (List.append_eq_nil.mp hq).2
      have hge : t + 1 ≤ (waitLoop env exp r (t + 1) [] acc).2.1 :=
        waitLoop_stop_ge env exp r (t + 1) [] acc
      have hk : (waitLoop env exp r (t + 1) [] acc).2.1 - t =
          ((waitLoop env exp r (t + 1) [] acc).2.1 - (t + 1)) + 1 := by omega
      rw [hk, List.range'_succ, List.flatMap_cons, hq2, ih (t + 1) [] acc]
      simp [hq1]
    next m rest hq =>
      by_cases hb : breakMatch exp m = true
      · rw [if_pos hb]
        have h2 : t + 1 - t = 1 := by omega
        have h1 : (List.range' t (t + 1 - t)).flatMap (fun u => (env u).arrivals) =
            (env t).arrivals := by
          simp [h2, List.range'_succ]
        rw [h1]
        show acc ++ [m] ++ rest = acc ++ q ++ (env t).arrivals
        rw [List.append_assoc acc [m] rest, List.singleton_append, ← hq, List.append_assoc]
      · rw [if_neg hb]
        have hge : t + 1 ≤ (waitLoop env exp r (t + 1) rest (acc ++ [m])).2.1 :=
          waitLoop_stop_ge env exp r (t + 1) rest (acc ++ [m])
        have hk : (waitLoop env exp r (t + 1) rest (acc ++ [m])).2.1 - t =
            ((waitLoop env exp r (t + 1) rest (acc ++ [m])).2.1 - (t + 1)) + 1 := by omega
        rw [hk, List.range'_succ, List.flatMap_cons, ih (t + 1) rest (acc ++ [m])]
        have hmr : acc ++ [m] ++ rest = acc ++ q ++ (env t).arrivals := by
          rw [List.append_assoc acc [m] rest, List.singleton_append, ← hq, List.append_assoc]
        rw [hmr, List.append_assoc]

theorem on_message_queue (st : RecvState) (f : Frame) :
    (on_message st f).queue = st.queue ++ [decodeFrame f] := by
  rw [on_message]
  split <;> rfl

theorem processFrames_queue (st : RecvState) (fs : List Frame) :
    (processFrames st fs).queue = st.queue ++ fs.map decodeFrame := by
  induction fs generalizing st with
  | nil => simp [processFrames]
  | cons f fs ih =>
    have h1 : processFrames st (f :: fs) = processFrames (on_message st f) fs := rfl
    rw [h1, ih (on_message st f), on_message_queue]
    simp

theorem readyLoop_iff (polls : Nat → PollR) :
    ∀ r t, readyLoop polls r t = true ↔
      ∃ u, t ≤ u ∧ u < t + r ∧ isRunningPoll (polls u) = true := by
  intro r
  induction r with
  | zero =>
    intro t
    simp only [readyLoop, Bool.false_eq_true, false_iff, not_exists]
    intro u h
    omega
  | succ r ih =>
    intro t
    simp only [readyLoop]
    by_cases h : isRunningPoll (polls t) = true
    · rw [if_pos h]
      simp only [true_iff]
      exact ⟨t, le_rfl, by omega, h⟩
    · rw [if_neg h, ih]
      constructor
      · rintro ⟨u, h1, h2, h3⟩
        exact ⟨u, by omega, by omega, h3⟩
      · rintro ⟨u, h1, h2, h3⟩
        refine ⟨u, ?_, by omega, h3⟩
        rcases Nat.eq_or_lt_of_le h1 with he | hl
        · exfalso
          apply h
          rw [he]
          exact h3
        · omega

theorem exec_ok (conn th : Bool) (pre : List Msg) (env : Nat → Tick)
    (command : String) (exp : Option String) (timeout : Nat) :
    execute_command_and_wait ⟨true, conn, th⟩ false pre env command exp timeout =
      .ok ⟨command, (waitLoop env exp timeout 0 [] []).1,
        decide (0 < (waitLoop env exp timeout 0 [] []).1.length),
        (waitLoop env exp timeout 0 [] []).2.1⟩ := by
  have h : execute_command_and_wait ⟨true, conn, th⟩ false pre env command exp timeout =
      .ok ⟨command, (waitLoop env exp timeout 0 (drainQueue pre) []).1,
        decide (0 < (waitLoop env exp timeout 0 (drainQueue pre) []).1.length),
        (waitLoop env exp timeout 0 (drainQueue pre) []).2.1⟩ := rfl
  rw [h, drainQueue_nil]

theorem exec_ok_inv (st : ClientState) (writeFails : Bool) (pre : List Msg)
    (env : Nat → Tick) (command : String) (exp : Option String) (timeout : Nat)
    (r : ExecResult)
    (hok : execute_command_and_wait st writeFails pre env command exp timeout = .ok r) :
    r = ⟨command, (waitLoop env exp timeout 0 [] []).1,
      decide (0 < (waitLoop env exp timeout 0 [] []).1.length),
      (waitLoop env exp timeout 0 [] []).2.1⟩ := by
  rw [execute_command_and_wait, drainQueue_nil] at hok
  cases hs : send_command st writeFails command with
  | error e =>
    rw [hs] at hok
    exact absurd hok (by simp)
  | ok p =>
    obtain ⟨sent, fr⟩ := p
    cases sent with
    | false =>
      rw [hs] at hok
      exact absurd hok (by simp)
    | true =>
      rw [hs] at hok
      simp only at hok
      exact (Except.ok.inj hok).symm

/-- C1 counterexample: on a connected session, with
`expected_output = "foo"` and a single message whose payload `"bar"`
does not contain it, `execute_command_and_wait` still seals
`success = True` after the full 2-tick timeout — the claim says this
run is a Timeout, not a Success, because no collected payload contains
the expected substring. -/
theorem exec_success_without_match :
    execute_command_and_wait ⟨true, true, true⟩ false [] envOneBar "ls" (some "foo") 2 =
      .ok ⟨"ls", [⟨"output", "bar"⟩], true, 2⟩ ∧
    substrIn "foo" "bar" = false := by
  constructor
  · rfl
  · rfl

/-- C1 amended: on a connected session whose send succeeds,
`execute_command_and_wait` always returns a result, and that result's
`success` is `True` exactly when at least one Message arrives before
the timeout elapses — whether or not `expected_output` was given; a
matching payload only stops the collection early.  A run with no
arrivals seals `success = False` (the Timeout outcome). -/
theorem execute_command_and_wait_success_iff (st : ClientState) (writeFails : Bool)
    (hws : st.wsPresent = true) (hw : writeFails = false) (pre : List Msg)
    (env : Nat → Tick) (command : String) (exp : Option String) (timeout : Nat) :
    ∃ r, execute_command_and_wait st writeFails pre env command exp timeout = .ok r ∧
      (r.success = true ↔ ∃ t, t < timeout ∧ (env t).arrivals ≠ []) := by
  obtain ⟨ws, conn, th⟩ := st
  replace hws : ws = true := hws
  subst hws
  subst hw
  refine ⟨_, exec_ok conn th pre env command exp timeout, ?_⟩
  show decide (0 < (waitLoop env exp timeout 0 [] []).1.length) = true ↔ _
  rw [decide_eq_true_eq]
  have hempty := waitLoop_empty_iff env exp timeout 0 [] []
  constructor
  · intro hpos
    by_contra hno
    push_neg at hno
    have hnil : (waitLoop env exp timeout 0 [] []).1 = [] :=
      hempty.mpr ⟨rfl, fun _ => rfl, fun u h1 h2 => hno u (by omega)⟩
    rw [hnil] at hpos
    simp at hpos
  · rintro ⟨u, hu, hne⟩
    rcases Nat.eq_zero_or_pos (waitLoop env exp timeout 0 [] []).1.length with hz | hp
    · exfalso
      have hnil : (waitLoop env exp timeout 0 [] []).1 = [] := List.length_eq_zero.mp hz
      exact hne ((hempty.mp hnil).2.2 u (by omega) (by omega))
    · exact hp

/-- C1 amended, instantiated: the raising run of
`execute_command_and_wait_success_iff` on the `envOneBar` script. -/
theorem execute_command_and_wait_success_iff_witness :
    ∃ r, execute_command_and_wait ⟨true, true, true⟩ false [] envOneBar "ls" (some "foo") 2 =
        .ok r ∧ (r.success = true ↔ ∃ t, t < 2 ∧ (envOneBar t).arrivals ≠ []) :=
  execute_command_and_wait_success_iff ⟨true, true, true⟩ false rfl rfl [] envOneBar "ls"
    (some "foo") 2

/-- C2 counterexample: the transport is closed from tick 0 on
(`envClosedNoArrivals`), yet `execute_command_and_wait` waits out the
full 2-tick timeout (`ticks = 2`), seals `success = False` — the same
shape as a plain Timeout, with no ConnectionLost outcome — and returns
exactly what it returns when the same (empty) message traffic happens
on a transport that stays open. -/
theorem exec_ignores_mid_wait_close :
    execute_command_and_wait ⟨true, true, true⟩ false [] envClosedNoArrivals "ls" none 2 =
      .ok ⟨"ls", [], false, 2⟩ ∧
    execute_command_and_wait ⟨true, true, true⟩ false [] envClosedNoArrivals "ls" none 2 =
      execute_command_and_wait ⟨true, true, true⟩ false []
        (fun t => ⟨(envClosedNoArrivals t).arrivals, true⟩) "ls" none 2 := by
  constructor
  · rfl
  · rfl

/-- C2 amended: the wait of `execute_command_and_wait` never observes
the connection state: its result depends only on the arriving
messages, so a session transitioning to Closed/Failed mid-wait changes
nothing — in particular, when the transport drops before any message
arrives, the call still waits out the full timeout and seals
`success = False` rather than failing fast with a ConnectionLost
outcome. -/
theorem execute_command_and_wait_conn_blind (st : ClientState) (writeFails : Bool)
    (pre : List Msg) (env env' : Nat → Tick) (command : String) (exp : Option String)
    (timeout : Nat) (harr : ∀ t, (env t).arrivals = (env' t).arrivals) :
    execute_command_and_wait st writeFails pre env command exp timeout =
      execute_command_and_wait st writeFails pre env' command exp timeout ∧
    ((∀ t, (env t).arrivals = []) → st.wsPresent = true → writeFails = false →
      execute_command_and_wait st writeFails pre env command exp timeout =
        .ok ⟨command, [], false, timeout⟩) := by
  constructor
  · rw [execute_command_and_wait, execute_command_and_wait,
      waitLoop_conn_irrel env env' exp harr timeout 0 (drainQueue pre) []]
  · intro hnone hws hw
    obtain ⟨ws, conn, th⟩ := st
    replace hws : ws = true := hws
    subst hws
    subst hw
    rw [exec_ok, waitLoop_no_arrivals env exp timeout 0 [] (fun u _ _ => hnone u)]
    simp

/-- C2 amended, instantiated on the closed-transport script. -/
theorem execute_command_and_wait_conn_blind_witness :
    execute_command_and_wait ⟨true, true, true⟩ false [] envClosedNoArrivals "pwd" none 3 =
      execute_command_and_wait ⟨true, true, true⟩ false []
        (fun t => ⟨(envClosedNoArrivals t).arrivals, true⟩) "pwd" none 3 ∧
    ((∀ t, (envClosedNoArrivals t).arrivals = []) →
      (⟨true, true, true⟩ : ClientState).wsPresent = true → false = false →
      execute_command_and_wait ⟨true, true, true⟩ false [] envClosedNoArrivals "pwd" none 3 =
        .ok ⟨"pwd", [], false, 3⟩) :=
  execute_command_and_wait_conn_blind ⟨true, true, true⟩ false [] envClosedNoArrivals
    (fun t => ⟨(envClosedNoArrivals t).arrivals, true⟩) "pwd" none 3 (fun _ => rfl)

/-- C3 counterexample: when the remote refuses the resource id
(`hsRejected`: a policy-violation close at tick 0, no acknowledgement),
`connect` raises the generic `"WebSocket连接超时"` timeout exception
after its full 10-second wait — not a distinct RemoteRejected error —
and its outcome is identical to that of a remote that never answers at
all. -/
theorem connect_rejection_raises_timeout :
    connect hsRejected = .error "WebSocket连接超时" ∧
    connect hsRejected = connect hsSilent := by
  constructor
  · rfl
  · rfl

/-- C3 amended: every `connect` call either returns `True` — exactly
when the connection acknowledgement was observed within the 10-second
handshake wait, i.e. with the session Connected, never while still
Connecting — or raises the single `"WebSocket连接超时"` exception; no
RemoteRejected error exists, a refusal surfaces as that same timeout
exception. -/
theorem connect_ack_or_timeout (env : Nat → HsTick) :
    (connect env = .ok true ↔ ackWithin env 10 = true) ∧
    (connect env = .ok true ∨ connect env = .error "WebSocket连接超时") := by
  constructor
  · constructor
    · intro h
      by_contra hno
      rw [connect, if_neg hno] at h
      exact absurd h (by simp)
    · intro h
      rw [connect, if_pos h]
  · rw [connect]
    by_cases h : ackWithin env 10 = true
    · exact Or.inl (by rw [if_pos h])
    · exact Or.inr (by rw [if_neg h])

/-- C4: `wait_for_container_ready` is total (the bare `except` swallows
every poll failure, so it never raises) and returns `True` exactly when
some poll strictly before the deadline observes `status == "running"`;
a raised poll (`PollR.raiseErr`) counts as not running, never as
fatal. -/
theorem wait_for_container_ready_iff_running (polls : Nat → PollR) (timeout : Nat) :
    (wait_for_container_ready polls timeout = true ↔
      ∃ t, t < timeout ∧ isRunningPoll (polls t) = true) ∧
    isRunningPoll PollR.raiseErr = false := by
  refine ⟨?_, rfl⟩
  rw [wait_for_container_ready, readyLoop_iff]
  constructor
  · rintro ⟨u, _, h2, h3⟩
    exact ⟨u, by omega, h3⟩
  · rintro ⟨u, h1, h3⟩
    exact ⟨u, by omega, by omega, h3⟩

/-- C5 counterexample: after `close()` the session is not Connected
(`is_connected` is `False`), yet `send_command` does not fail with the
`"WebSocket未连接"` exception: `self.ws` still holds the transport
object, so the guard passes and the write is attempted — returning
`False` when the write raises, `True` when it succeeds. -/
theorem send_after_close_no_raise :
    is_connected closedState = false ∧
    send_command closedState true "ls" = .ok (false, none) ∧
    send_command closedState false "ls" = .ok (true, some ⟨"input", "ls\n"⟩) := by
  refine ⟨rfl, rfl, rfl⟩

/-- C5 amended: `send_command` fails with `"WebSocket未连接"` exactly
when the transport object is absent (`connect` never ran); whenever the
object exists — Connected or not — it builds the frame
`{"type": "input", "data": command + "\n"}` and attempts the write,
returning `True` on success and `False` when the write raises. -/
theorem send_command_spec (st : ClientState) (writeFails : Bool) (command : String) :
    (st.wsPresent = false → send_command st writeFails command = .error "WebSocket未连接") ∧
    (st.wsPresent = true →
      send_command st writeFails command =
        if writeFails then .ok (false, none)
        else .ok (true, some ⟨"input", command ++ "\n"⟩)) := by
  constructor
  · intro h
    rw [send_command, h]
    rfl
  · intro h
    rw [send_command, h]
    cases writeFails <;> rfl

/-- C6: the drain loop empties the queue whatever it held, so the
result of `execute_command_and_wait` is independent of the messages
queued when the call begins, and every Message it collects was
delivered by the receive loop during the wait (at some tick before the
loop stopped) — never taken from the pre-existing queue content. -/
theorem execute_command_and_wait_drains (st : ClientState) (writeFails : Bool)
    (pre pre' : List Msg) (env : Nat → Tick) (command : String) (exp : Option String)
    (timeout : Nat) :
    execute_command_and_wait st writeFails pre env command exp timeout =
      execute_command_and_wait st writeFails pre' env command exp timeout ∧
    (∀ r m, execute_command_and_wait st writeFails pre env command exp timeout = .ok r →
      m ∈ r.outputs → ∃ t, t < r.ticks ∧ m ∈ (env t).arrivals) := by
  constructor
  · rw [execute_command_and_wait, execute_command_and_wait, drainQueue_nil, drainQueue_nil]
  · intro r m hok hm
    have hr := exec_ok_inv st writeFails pre env command exp timeout r hok
    subst hr
    have hf := waitLoop_fifo env exp timeout 0 [] []
    simp only [List.nil_append, Nat.sub_zero] at hf
    have hm2 : m ∈ (waitLoop env exp timeout 0 [] []).1 ++
        (waitLoop env exp timeout 0 [] []).2.2 :=
      List.mem_append_left _ hm
    rw [hf, List.mem_flatMap] at hm2
    obtain ⟨u, hu, hmu⟩ := hm2
    rw [List.mem_range'_1] at hu
    refine ⟨u, ?_, hmu⟩
    show u < (waitLoop env exp timeout 0 [] []).2.1
    omega

/-- C7: the receive loop enqueues exactly one Message per inbound
frame, at the back of the queue in arrival order (the parsed object
when decoding succeeds, the `{"type": "raw", ...}` wrapper otherwise —
`decodeFrame` — so no frame is dropped); and the wait loop of
`execute_command_and_wait` observes the queue in that same FIFO order:
its collected outputs followed by the leftover queue equal the prior
queue content followed by the arrivals of the polled ticks, in
order. -/
theorem receive_enqueues_in_order (st : RecvState) (fs : List Frame) (env : Nat → Tick)
    (exp : Option String) (r t : Nat) (q acc : List Msg) :
    (processFrames st fs).queue = st.queue ++ fs.map decodeFrame ∧
    (waitLoop env exp r t q acc).1 ++ (waitLoop env exp r t q acc).2.2 =
      acc ++ q ++ (List.range' t ((waitLoop env exp r t q acc).2.1 - t)).flatMap
        (fun u => (env u).arrivals) :=
  ⟨processFrames_queue st fs, waitLoop_fifo env exp r t q acc⟩

/-- C8: `close` is idempotent on every session whose `connect` ran
(`self.ws` present): a second `close` changes nothing, and after each
of the two calls the session is disconnected; the function is total,
so the second call completes without error. -/
theorem close_idempotent (st : ClientState) (h : st.wsPresent = true) :
    close (close st) = close st ∧
    is_connected (close st) = false ∧
    is_connected (close (close st)) = false := by
  obtain ⟨ws, conn, th⟩ := st
  replace h : ws = true := h
  subst h
  refine ⟨rfl, rfl, rfl⟩

/-- C8 instantiated: double `close` on a live connected session. -/
theorem close_idempotent_witness :
    close (close ⟨true, true, true⟩) = close ⟨true, true, true⟩ ∧
    is_connected (close ⟨true, true, true⟩) = false ∧
    is_connected (close (close ⟨true, true, true⟩)) = false :=
  close_idempotent ⟨true, true, true⟩ rfl

/-- C9: in the main-thread trace of the fan-out harness every
`thread.start()` precedes every `thread.join()` (worker `i` starts at
position `i`, worker `j` is joined at position `n + j`, and `i < n + j`
— so all `n` workers are started before any is awaited and their
lifetimes overlap); each worker is started exactly once (no retry); and
the harness records one outcome per worker, each worker's own outcome
(`check_conflict` of its own call), independent of the others. -/
theorem fanOut_starts_before_joins (op : Nat → Except String String) (n i j : Nat)
    (hi : i < n) (hj : j < n) :
    (fanOutTrace n)[i]? = some (FanEvent.start i) ∧
    (fanOutTrace n)[n + j]? = some (FanEvent.join j) ∧
    i < n + j ∧
    (fanOutTrace n).count (FanEvent.start i) = 1 ∧
    (fanOutResults op n).length = n ∧
    (fanOutResults op n)[i]? = some (check_conflict (op i)) := by
  have hlen : ((List.range n).map FanEvent.start).length = n := by
    rw [List.length_map, List.length_range]
  have hinj : Function.Injective FanEvent.start := by
    intro a b hab
    injection hab
  refine ⟨?_, ?_, by omega, ?_, ?_, ?_⟩
  · rw [fanOutTrace, List.getElem?_append_left (by rw [hlen]; omega),
      List.getElem?_map, List.getElem?_range hi]
    rfl
  · rw [fanOutTrace, List.getElem?_append_right (by rw [hlen]; omega), hlen]
    have hnj : n + j - n = j := by omega
    rw [hnj, List.getElem?_map, List.getElem?_range hj]
    rfl
  · have hnod : (fanOutTrace n).Nodup := by
      rw [fanOutTrace]
      refine List.Nodup.append (List.Nodup.map hinj (List.nodup_range n))
        (List.Nodup.map (fun a b hab => by injection hab) (List.nodup_range n)) ?_
      intro a ha hb
      rw [List.mem_map] at ha hb
      obtain ⟨x, _, hx⟩ := ha
      obtain ⟨y, _, hy⟩ := hb
      rw [← hx] at hy
      exact FanEvent.noConfusion hy
    have hmem : FanEvent.start i ∈ fanOutTrace n := by
      rw [fanOutTrace]
      exact List.mem_append_left _ (List.mem_map.mpr ⟨i, List.mem_range.mpr hi, rfl⟩)
    exact List.count_eq_one_of_mem hnod hmem
  · rw [fanOutResults, List.length_map, List.length_range]
  · rw [fanOutResults, List.getElem?_map, List.getElem?_range hi]
    rfl

/-- C9 instantiated: the five concurrent `check_port_conflict` workers
of the port-conflict scenario. -/
theorem fanOut_starts_before_joins_witness :
    (fanOutTrace 5)[2]? = some (FanEvent.start 2) ∧
    (fanOutTrace 5)[5 + 1]? = some (FanEvent.join 1) ∧
    2 < 5 + 1 ∧
    (fanOutTrace 5).count (FanEvent.start 2) = 1 ∧
    (fanOutResults (fun _ => Except.ok "isConflicted=true") 5).length = 5 ∧
    (fanOutResults (fun _ => Except.ok "isConflicted=true") 5)[2]? =
      some (check_conflict (Except.ok "isConflicted=true")) :=
  fanOut_starts_before_joins (fun _ => Except.ok "isConflicted=true") 5 2 1
    (by omega) (by omega)

/-- C10: when the transport object exists and the underlying write
raises, `send_command` catches the exception and returns the value
`False`: the call ends in an ordinary return, not in a raised
exception. -/
theorem send_command_write_failure_returns_false (st : ClientState) (command : String)
    (hws : st.wsPresent = true) :
    send_command st true command = .ok (false, none) := by
  rw [send_command, hws]
  rfl

/-- C10 instantiated: a failing write on a live session. -/
theorem send_command_write_failure_returns_false_witness :
    send_command ⟨true, true, true⟩ true "echo hi" = .ok (false, none) :=
  send_command_write_failure_returns_false ⟨true, true, true⟩ "echo hi" rfl

end KWDBPlayground
